import Mathlib

/-!
Verification development for `libnano.padlock` (padlock / MIP probe generation
and screening).  Nucleotide sequences are modelled as `List Char`; Python float
quantities (melting temperatures, GC fractions) are modelled as exact fractions
(`Frac` below) ordered by cross multiplication; the external primer3
calculators (`calcTm`, `calcHeterodimerTm`) are abstract pure functions passed
as parameters.  Fallible code returns `Except`.
-/

/-- Python float quantities (melting temperatures, GC fractions, configuration
bounds) are modelled as exact fractions `num / den`.  Arithmetic is exact and
does not normalize; the order relations are the rational cross-multiplication
orders (for positive denominators these agree with the rational order). -/
structure Frac where
  num : ℤ
  den : ℕ
deriving DecidableEq

instance (n : ℕ) : OfNat Frac n := ⟨⟨n, 1⟩⟩

/-- Exact addition of fractions (no normalization). -/
def Frac.add (a b : Frac) : Frac := ⟨a.num * b.den + b.num * a.den, a.den * b.den⟩

/-- Exact multiplication of fractions (no normalization). -/
def Frac.mul (a b : Frac) : Frac := ⟨a.num * b.num, a.den * b.den⟩

/-- The (strict) order on fractions by cross multiplication. -/
def Frac.lt (a b : Frac) : Prop := a.num * b.den < b.num * a.den

/-- The order on fractions by cross multiplication. -/
def Frac.le (a b : Frac) : Prop := a.num * b.den ≤ b.num * a.den

instance : Add Frac := ⟨Frac.add⟩

instance : Mul Frac := ⟨Frac.mul⟩

instance : LT Frac := ⟨Frac.lt⟩

instance : LE Frac := ⟨Frac.le⟩

instance (a b : Frac) : Decidable (a < b) := Int.decLt _ _

instance (a b : Frac) : Decidable (a ≤ b) := Int.decLe _ _

theorem Frac.not_le_iff_lt (a b : Frac) : ¬(a ≤ b) ↔ b < a := Int.not_le

/-- A nucleotide sequence, modelled as a list of characters. -/
abbrev Str := List Char

/-- Python slice `s[a:b]` for nonnegative bounds (out-of-range bounds truncate). -/
def pyslice (s : Str) (a b : ℕ) : Str :=
  (s.drop a).take (b - a)

/-- Does `needle` match at the head of `hay`? (helper for Python's `in` on strings). -/
def matches_at : Str → Str → Bool
  | [], _ => true
  | _ :: _, [] => false
  | a :: as, b :: bs => (a == b) && matches_at as bs

/-- Python's substring containment `needle in hay`. -/
def contains_sub (needle : Str) : Str → Bool
  | [] => matches_at needle []
  | c :: t => matches_at needle (c :: t) || contains_sub needle t

/-- The polyG motif `'GGGG'` screened against in `generate_padlocks`. -/
def gggg : Str := ['G', 'G', 'G', 'G']

/-- Modelled from the spec: the GC-content utility (`libnano.metric.seqmetric.gc_content`,
not under `src/`): given a sequence, returns the fraction of G/C bases. -/
def gc_content (s : Str) : Frac :=
  ⟨(s.count 'G' + s.count 'C' : ℕ), s.length⟩

/-- `padlock_right_arm_gc_clamp`: count of G/C in the last five bases (`p[-5:]`). -/
def padlock_right_arm_gc_clamp (p : Str) : ℕ :=
  let r_3p := p.drop (p.length - 5)
  r_3p.count 'G' + r_3p.count 'C'

/-- `padlock_left_arm_gc_clamp`: count of G/C in the first five bases (`p[0:5]`). -/
def padlock_left_arm_gc_clamp (p : Str) : ℕ :=
  let l_3p := p.take 5
  l_3p.count 'G' + l_3p.count 'C'

/-- Modelled from the spec: one scaffold template from the dataset file
`padlock.yaml` (not under `src/`).  Each template has one designated barcode
slot and several always-empty auxiliary slots, so instantiating it with a
barcode yields `pre ++ barcode ++ post` for fixed template parts. -/
structure ScafTemplate where
  pre : Str
  post : Str
deriving DecidableEq

/-- Modelled from the spec: the three scaffold chemistries (`solid`, `illumina`,
`hybrid`) loaded from the dataset file. -/
structure ScafTemplates where
  solid : ScafTemplate
  illumina : ScafTemplate
  hybrid : ScafTemplate
deriving DecidableEq

/-- Instantiate a scaffold template with a barcode (Python `str.format` with the
barcode slot filled and all auxiliary slots replaced by empty strings). -/
def instantiate_scaffold (t : ScafTemplate) (barcode : Str) : Str :=
  t.pre ++ barcode ++ t.post

/-- `create_scaffold(barcode, scaf_type)`: select a template by chemistry name and
instantiate it with the barcode; unknown chemistry raises `ValueError`. -/
def create_scaffold (ts : ScafTemplates) (barcode : Str) (scaf_type : String) :
    Except String Str :=
  if scaf_type = "solid" then Except.ok (instantiate_scaffold ts.solid barcode)
  else if scaf_type = "illumina" then Except.ok (instantiate_scaffold ts.illumina barcode)
  else if scaf_type = "hybrid" then Except.ok (instantiate_scaffold ts.hybrid barcode)
  else Except.error ("Unknown scaf_type, " ++ scaf_type)

/-- The primer3 thermodynamic parameters carried in the configuration. -/
structure ThermoParams where
  mv_conc : Frac
  dv_conc : Frac
  dntp_conc : Frac
  dna_conc : Frac
deriving DecidableEq

/-- The padlock screening configuration dictionary (`DEFAULT_PADLOCK_CONFIG` keys,
in source order). -/
structure PadConfig where
  species : String
  padding : ℕ
  spacing : ℕ
  arm_length : ℕ
  gap_size : ℕ
  arm_gc_min : Frac
  arm_gc_max : Frac
  scaffold : Str
  exclude_seqs : List Str
  structure_tm_max : Frac
  keep_random_n : Option ℕ
  thermo_params : ThermoParams
  arm_tm_min : Frac
deriving DecidableEq

/-- The `report` dictionary of `screen_padlock_arms` (fields in source order). -/
structure Report where
  arm_gc_min_l : Frac
  arm_gc_max_l : Frac
  arm_gc_min_r : Frac
  arm_gc_max_r : Frac
  l_clamp : Bool
  tm_arm_min_l : Frac
  tm_arm_min_r : Frac
  ex_seq : List Str
  tm_hairpin_l : Frac
  tm_hairpin_r : Frac
  tm_hetero_0 : Frac
  tm_hetero_1 : Frac
  tm_hetero_2 : Frac
deriving DecidableEq

/-- The initial `report` dictionary literal of `screen_padlock_arms`. -/
def init_report : Report :=
  ⟨0, 0, 0, 0, true, 0, 0, [], 0, 0, 0, 0, 0⟩

/-- The `PadHit` named tuple (fields in source order). -/
structure PadHit where
  name0 : String
  name1 : String
  strand_dir : String
  genome_idx : ℤ
  idx : ℕ
  gap_size : ℕ
  padlock_seq : Str
  barcode : Str
  seq_r : Str
  scaffold : Str
  seq_l : Str
deriving DecidableEq

/-- A melting-temperature calculator: abstract model of primer3's `calcTm`. -/
abbrev TmCalc := Str → ThermoParams → Frac

/-- A heterodimer-temperature calculator: abstract model of primer3's
`calcHeterodimerTm`. -/
abbrev HeteroCalc := Str → Str → ThermoParams → Frac

/-- `screen_padlock_arms(p_l_seq, p_r_seq, loop_seq, p_params)`: evaluates the
acceptability criteria exactly as the source does (GC bounds on both arms, the
left-arm 5' GC clamp, both arms' self-Tm, the first excluded substring found in
`p_r_seq + loop_seq + p_l_seq`, the three heterodimer Tms) and returns
`(is_good, report)`.  As in the source, `report.l_clamp` is assigned `False`
unconditionally and the excluded-substring loop stops at the first match. -/
def screen_padlock_arms (calcTm : TmCalc) (calcHeterodimerTm : HeteroCalc)
    (p_l_seq p_r_seq loop_seq : Str) (p_params : PadConfig) : Bool × Report :=
  let tp := p_params.thermo_params
  let p_l_gc_content := gc_content p_l_seq
  let p_r_gc_content := gc_content p_r_seq
  let is_good := true
  let is_good := if p_l_gc_content < p_params.arm_gc_min then false else is_good
  let is_good := if p_r_gc_content < p_params.arm_gc_min then false else is_good
  let is_good := if p_l_gc_content > p_params.arm_gc_max then false else is_good
  let is_good := if p_r_gc_content > p_params.arm_gc_max then false else is_good
  let l_3p_check := padlock_left_arm_gc_clamp p_l_seq
  let is_good := if l_3p_check > 3 then false else is_good
  let p_arm_tm_l := calcTm p_l_seq tp
  let p_arm_tm_r := calcTm p_r_seq tp
  let is_good := if p_arm_tm_l < p_params.arm_tm_min then false else is_good
  let is_good := if p_arm_tm_r < p_params.arm_tm_min then false else is_good
  let p_seq := p_r_seq ++ loop_seq ++ p_l_seq
  let found := p_params.exclude_seqs.find? (fun ex => contains_sub ex p_seq)
  let ex_list : List Str := found.elim [] (fun ex => [ex])
  let is_good := if found.isSome then false else is_good
  let p_het_tm_0 := calcHeterodimerTm p_l_seq p_r_seq tp
  let p_het_tm_1 := calcHeterodimerTm p_l_seq loop_seq tp
  let p_het_tm_2 := calcHeterodimerTm p_r_seq loop_seq tp
  let is_good := if p_het_tm_0 > p_params.structure_tm_max then false else is_good
  let is_good := if p_het_tm_1 > p_params.structure_tm_max then false else is_good
  let is_good := if p_het_tm_2 > p_params.structure_tm_max then false else is_good
  (is_good,
    ⟨p_l_gc_content, p_l_gc_content, p_r_gc_content, p_r_gc_content,
     false, p_arm_tm_l, p_arm_tm_r, ex_list, 0, 0,
     p_het_tm_0, p_het_tm_1, p_het_tm_2⟩)

/-- The loop body of `split_hit_list`: `delta` is the running threshold, `group`
the currently open group (Python appends the closing group to `hit_lists`
before opening a new one; here the groups are emitted in the same order). -/
def split_hit_aux (arm_length spacing : ℕ) (delta : ℕ)
    (group : List (ℕ × Report)) : List (ℕ × Report) → List (List (ℕ × Report))
  | [] => [group]
  | x :: rest =>
    if delta < x.1 then
      group :: split_hit_aux arm_length spacing (x.1 + 2 * arm_length + spacing) [x] rest
    else
      split_hit_aux arm_length spacing delta (group ++ [x]) rest

/-- `split_hit_list(items, arm_length, spacing)`: split hits into groups by a
spacing and an arm length; `delta` starts at `items[0][0] + 2*arm_length +
spacing` and the loop runs over all of `items` starting from an empty group. -/
def split_hit_list (items : List (ℕ × Report)) (arm_length spacing : ℕ) :
    List (List (ℕ × Report)) :=
  match items with
  | [] => []
  | x :: _ => split_hit_aux arm_length spacing (x.1 + 2 * arm_length + spacing) [] items

/-- The sorting key `max_tm_f` of `sort_hit_list`. -/
def max_tm_f (x : ℕ × Report) : Frac :=
  x.2.tm_arm_min_l + (⟨9, 10⟩ : Frac) * x.2.tm_arm_min_r

/-- `sort_hit_list(items)`: Python's stable `sorted(items, key=max_tm_f,
reverse=True)`, modelled as a stable insertion sort by descending key. -/
def sort_hit_list (items : List (ℕ × Report)) : List (ℕ × Report) :=
  items.insertionSort (fun a b => max_tm_f b ≤ max_tm_f a)

/-- The scaffold-selection loop of `generate_padlocks` (lines 409-415): each
barcode is instantiated with the `hybrid` template (`create_scaffold` with
`scaf_type='hybrid'` always succeeds, see `create_scaffold_hybrid`), and the
`scaffold` variable is overwritten by every candidate not containing `'GGGG'`,
so the last viable candidate wins; it stays `''` when none is viable. -/
def select_scaffold (ts : ScafTemplates) (barcodes : List Str) : Str :=
  barcodes.foldl
    (fun acc barcode =>
      let candidate_scaffold := instantiate_scaffold ts.hybrid barcode
      if contains_sub gggg candidate_scaffold then acc else candidate_scaffold)
    []

/-- One iteration of the candidate-enumeration loop of `generate_padlocks`
(lines 421-439): the candidate produced at window start `i`, or `none` when
the window span contains `'GGGG'` or `screen_padlock_arms` rejects it. -/
def padlock_window (calcTm : TmCalc) (calcHeterodimerTm : HeteroCalc) (seq : Str)
    (arm_length gap_size : ℕ) (scaffold : Str) (params : PadConfig) (i : ℕ) :
    Option (ℕ × Report) :=
  if contains_sub gggg (pyslice seq i (i + 2 * arm_length + gap_size)) = false then
    let l_primer := pyslice seq i (i + arm_length)
    let r_primer := pyslice seq (i + arm_length + gap_size) (i + 2 * arm_length + gap_size)
    let res := screen_padlock_arms calcTm calcHeterodimerTm l_primer r_primer scaffold params
    if res.1 then some (i, res.2) else none
  else none

/-- The candidate-enumeration loop of `generate_padlocks` (lines 419-442): for
every window start in `range(len(seq) - 2*arm_length)`, skip the window when
`seq[i:i + 2*arm_length + gap_size]` contains `'GGGG'`, otherwise extract the
two arms and keep `(i, report)` when `screen_padlock_arms` accepts. -/
def padlock_items (calcTm : TmCalc) (calcHeterodimerTm : HeteroCalc) (seq : Str)
    (arm_length gap_size : ℕ) (scaffold : Str) (params : PadConfig) :
    List (ℕ × Report) :=
  (List.range (seq.length - 2 * arm_length)).filterMap
    (padlock_window calcTm calcHeterodimerTm seq arm_length gap_size scaffold params)

/-- The probe-assembly tail of `generate_padlocks` (lines 443-486): cluster the
accepted candidates, sort each cluster, pick each cluster's first element and
materialize a `PadHit`; the `barcode` recorded is the loop variable left over
from the scaffold-selection loop, i.e. the last barcode of the list. -/
def padlock_hits (ts : ScafTemplates) (calcTm : TmCalc)
    (calcHeterodimerTm : HeteroCalc) (seq : Str) (name0 name1 strand_dir : String)
    (barcodes : List Str) (genome_idx : ℤ) (arm_length : ℕ) (params : PadConfig) :
    List PadHit :=
  let gap_size := params.gap_size
  let scaffold := select_scaffold ts barcodes
  let items := padlock_items calcTm calcHeterodimerTm seq arm_length gap_size scaffold params
  let hit_lists := (split_hit_list items arm_length params.spacing).map sort_hit_list
  let sampled_list := hit_lists.map (fun x => x.headD (0, init_report))
  sampled_list.map fun x =>
    let i := x.1
    let seq_l := pyslice seq i (i + arm_length)
    let seq_r := pyslice seq (i + arm_length + gap_size) (i + 2 * arm_length + gap_size)
    ⟨name0, name1, strand_dir, genome_idx, i, gap_size,
     seq_r ++ scaffold ++ seq_l, barcodes.getLastD [], seq_r, scaffold, seq_l⟩

/-- `generate_padlocks(seq, name0, name1, strand_dir, barcodes, genome_idx,
arm_length, params)`: raises when the barcode list is empty, builds the
scaffold from the barcodes (raising when every candidate scaffold contains
`'GGGG'`), then enumerates, screens, clusters, ranks and assembles the probes.
The caller-supplied `params` dictionary is merged over the default
configuration; the merged result is the `PadConfig` taken here. -/
def generate_padlocks (ts : ScafTemplates) (calcTm : TmCalc)
    (calcHeterodimerTm : HeteroCalc) (seq : Str) (name0 name1 strand_dir : String)
    (barcodes : List Str) (genome_idx : ℤ) (arm_length : ℕ) (params : PadConfig) :
    Except String (List PadHit) :=
  if barcodes.length = 0 then
    Except.error "barcodes length must be non-zero"
  else if select_scaffold ts barcodes = [] then
    Except.error "polyG in scaffold for all barcodes"
  else
    Except.ok (padlock_hits ts calcTm calcHeterodimerTm seq name0 name1 strand_dir
      barcodes genome_idx arm_length params)

/-- The raw (uninstantiated) hybrid scaffold template string, holding the
barcode slot text; only used as the default value of the never-read
`scaffold` configuration entry. -/
def scaffold_raw (t : ScafTemplate) : Str :=
  t.pre ++ "\x7bbarcode\x7d".toList ++ t.post

/-- `DEFAULT_PADLOCK_CONFIG()` (values in source order; floats as rationals). -/
def DEFAULT_PADLOCK_CONFIG (ts : ScafTemplates) : PadConfig :=
  ⟨"human", 25, 20, 20, 0, ⟨4, 10⟩, ⟨6, 10⟩, scaffold_raw ts.hybrid,
   [['G', 'G', 'G', 'G', 'G']], 30, none, ⟨50, 0, ⟨8, 10⟩, 50⟩, 50⟩

/-- Concrete scaffold templates used for evaluations (`hybrid` instantiates a
barcode `b` as `T ++ b ++ T`). -/
def fixTs : ScafTemplates :=
  ⟨⟨"S".toList, "S".toList⟩, ⟨"I".toList, "I".toList⟩, ⟨"T".toList, "T".toList⟩⟩

/-- A concrete melting-temperature calculator: constant 100. -/
def tmConst : TmCalc := fun _ _ => 100

/-- A concrete heterodimer calculator: constant 0. -/
def hetConst : HeteroCalc := fun _ _ _ => 0

/-- A concrete melting-temperature calculator keyed on the first base. -/
def tmTable : TmCalc := fun s _ =>
  match s with
  | 'A' :: _ => 100
  | 'C' :: _ => 110
  | 'T' :: _ => 50
  | _ => 0

/-- Build a configuration with permissive GC bounds and no excluded motifs,
varying the fields the concrete runs care about. -/
def mkCfg (spacing gap : ℕ) (tm_min : Frac) (keep : Option ℕ) : PadConfig :=
  ⟨"human", 25, spacing, 20, gap, 0, 1, [], [], 30, keep, ⟨50, 0, ⟨8, 10⟩, 50⟩, tm_min⟩

/-- The list of probes of a successful run (empty on error). -/
def run_hits (e : Except String (List PadHit)) : List PadHit :=
  e.toOption.getD []

theorem create_scaffold_hybrid (ts : ScafTemplates) (b : Str) :
    create_scaffold ts b "hybrid" = Except.ok (instantiate_scaffold ts.hybrid b) := by
  rfl

/-- Claim C1, counterexample: with `arm_length = 2` and `gap_size = 2` on the
5-nt target `AAAAT`, the single returned `PadHit` has a right arm of length 1
(the slice `seq[4:6]` is truncated at the end of the sequence), not
`arm_length`, and its full sequence has length `1 + 3 + 2 = 6`, not
`2*arm_length + len(scaffold) = 7`. -/
theorem claim_C1_counterexample :
    (generate_padlocks fixTs tmConst hetConst "AAAAT".toList "n0" "n1" "fwd"
        ["A".toList] (-1) 2 (mkCfg 20 2 0 none)).toOption.isSome = true ∧
    (run_hits (generate_padlocks fixTs tmConst hetConst "AAAAT".toList "n0" "n1" "fwd"
        ["A".toList] (-1) 2 (mkCfg 20 2 0 none))).map (fun h => h.seq_r.length) = [1] ∧
    (run_hits (generate_padlocks fixTs tmConst hetConst "AAAAT".toList "n0" "n1" "fwd"
        ["A".toList] (-1) 2 (mkCfg 20 2 0 none))).map (fun h => h.scaffold.length) = [3] ∧
    (run_hits (generate_padlocks fixTs tmConst hetConst "AAAAT".toList "n0" "n1" "fwd"
        ["A".toList] (-1) 2 (mkCfg 20 2 0 none))).map (fun h => h.padlock_seq.length) = [6] ∧
    (1 : ℕ) ≠ 2 ∧ (6 : ℕ) ≠ 2 * 2 + 3 := by
  refine ⟨by decide, by decide, by decide, by decide, by decide, by decide⟩

/-- Claim C3, counterexample: `arm_length = 1`, `spacing = 2`, target
`AATTACCA`, Tm calculator `tmTable`, `arm_tm_min = 60`.  The accepted windows
are 0, 4 and 5; windows 0 and 4 form one cluster (threshold `0+2+2 = 4`) whose
best-scoring member is window 4, window 5 alone forms the next cluster, so the
two selected probes are at indices 4 and 5: `5 - 4 = 1 < spacing = 2`. -/
theorem claim_C3_counterexample :
    (generate_padlocks fixTs tmTable hetConst "AATTACCA".toList "n0" "n1" "fwd"
        ["A".toList] (-1) 1 (mkCfg 2 0 60 none)).toOption.isSome = true ∧
    (run_hits (generate_padlocks fixTs tmTable hetConst "AATTACCA".toList "n0" "n1" "fwd"
        ["A".toList] (-1) 1 (mkCfg 2 0 60 none))).map PadHit.idx = [4, 5] ∧
    (mkCfg 2 0 60 none).spacing = 2 ∧ ¬(2 ≤ 5 - 4) := by
  refine ⟨by decide, by decide, by decide, by decide⟩

/-- Claim C4, counterexample: `screen_padlock_arms` accepts arms whose right arm
ends in five G/C bases: the right arm's GC-clamp window is never checked (only
`padlock_left_arm_gc_clamp` is called; `padlock_right_arm_gc_clamp` is defined
but unused), so the claimed both-arm clamp criterion does not constrain the
verdict. -/
theorem claim_C4_counterexample :
    (screen_padlock_arms tmConst hetConst "AAAAA".toList "GCGCC".toList "TAT".toList
        (mkCfg 20 0 0 none)).1 = true ∧
    ¬(padlock_right_arm_gc_clamp "GCGCC".toList ≤ 3) := by
  exact ⟨by decide, by decide⟩

/-- Claim C5, counterexample: with excluded motifs `["AA", "TT"]` and the probe
concatenation `AA ++ C ++ TT` (right arm `AA`, loop `C`, left arm `TT`), both
motifs occur, but the report's `ex_seq` records only the first match (`AA`)
because the source loop `break`s; and `l_clamp` is recorded as `False` even
though the left-arm clamp check passes (`TT` has 0 G/C in its first 5 nt). -/
theorem claim_C5_counterexample :
    (screen_padlock_arms tmConst hetConst "TT".toList "AA".toList "C".toList
        ⟨"human", 25, 20, 20, 0, 0, 1, [], ["AA".toList, "TT".toList], 30, none,
         ⟨50, 0, ⟨8, 10⟩, 50⟩, 0⟩).2.ex_seq = ["AA".toList] ∧
    contains_sub "TT".toList ("AA".toList ++ "C".toList ++ "TT".toList) = true ∧
    "TT".toList ∉ (screen_padlock_arms tmConst hetConst "TT".toList "AA".toList "C".toList
        ⟨"human", 25, 20, 20, 0, 0, 1, [], ["AA".toList, "TT".toList], 30, none,
         ⟨50, 0, ⟨8, 10⟩, 50⟩, 0⟩).2.ex_seq ∧
    (screen_padlock_arms tmConst hetConst "TT".toList "AA".toList "C".toList
        ⟨"human", 25, 20, 20, 0, 0, 1, [], ["AA".toList, "TT".toList], 30, none,
         ⟨50, 0, ⟨8, 10⟩, 50⟩, 0⟩).2.l_clamp = false ∧
    padlock_left_arm_gc_clamp "TT".toList ≤ 3 := by
  refine ⟨by decide, by decide, by decide, by decide, by decide⟩

/-- Claim C6, counterexample: with barcodes `["A", "C"]`, both of whose hybrid
scaffolds (`TAT`, `TCT`) are free of `GGGG`, the probe returned by
`generate_padlocks` carries the scaffold `TCT` instantiated from the LAST
viable barcode, not `TAT` from the first (the selection loop has no `break`).
-/
theorem claim_C6_counterexample :
    (run_hits (generate_padlocks fixTs tmConst hetConst "AAA".toList "n0" "n1" "fwd"
        ["A".toList, "C".toList] (-1) 1 (mkCfg 20 0 0 none))).map PadHit.scaffold
      = ["TCT".toList] ∧
    contains_sub gggg (instantiate_scaffold fixTs.hybrid "A".toList) = false ∧
    instantiate_scaffold fixTs.hybrid "A".toList = "TAT".toList ∧
    "TCT".toList ≠ "TAT".toList := by
  refine ⟨by decide, by decide, by decide, by decide⟩

/-- Claim C9: the `keep_random_n` configuration entry is never read by
`generate_padlocks`; with `keep_random_n = 1` this run still returns 2 probes
(target `AATAAC`, `arm_length = 1`, `spacing = 0`, accepted windows 0 and 3 in
two clusters). -/
theorem claim_C9_bug :
    (mkCfg 0 0 60 (some 1)).keep_random_n = some 1 ∧
    (generate_padlocks fixTs tmTable hetConst "AATAAC".toList "n0" "n1" "fwd"
        ["A".toList] (-1) 1 (mkCfg 0 0 60 (some 1))).toOption.isSome = true ∧
    (run_hits (generate_padlocks fixTs tmTable hetConst "AATAAC".toList "n0" "n1" "fwd"
        ["A".toList] (-1) 1 (mkCfg 0 0 60 (some 1)))).length = 2 ∧
    ¬((2 : ℕ) ≤ 1) := by
  refine ⟨by decide, by decide, by decide, by decide⟩

/-- A fraction is not below another exactly when it is at least it (totality of
the cross-multiplication order). -/
theorem Frac.not_lt_iff_le (a b : Frac) : ¬(a < b) ↔ b ≤ a := Int.not_lt

/-- Reference clustering following the claim text: a new group opens exactly
when a candidate's index exceeds (current group's first candidate index) +
`2*arm_length + spacing`; `first` is the open group's first candidate index. -/
def clusters_spec_aux (arm_length spacing : ℕ) (first : ℕ)
    (cur : List (ℕ × Report)) : List (ℕ × Report) → List (List (ℕ × Report))
  | [] => [cur]
  | x :: rest =>
    if first + 2 * arm_length + spacing < x.1 then
      cur :: clusters_spec_aux arm_length spacing x.1 [x] rest
    else
      clusters_spec_aux arm_length spacing first (cur ++ [x]) rest

/-- Reference clustering: empty input yields an empty group list; otherwise the
first candidate opens the first group. -/
def clusters_spec (arm_length spacing : ℕ) :
    List (ℕ × Report) → List (List (ℕ × Report))
  | [] => []
  | x :: rest => clusters_spec_aux arm_length spacing x.1 [x] rest

/-- The first element (earliest in enumeration order) among `x :: rest`
attaining the maximum of `f`: the reference ranking rule (score descending,
ties broken in favor of the earliest element). -/
def first_max_by {α : Type} (f : α → Frac) (x : α) : List α → α
  | [] => x
  | y :: rest =>
    let m := first_max_by f y rest
    if f x < f m then m else x

/-- The source's running `delta` always equals the open group's first index
plus `2*arm_length + spacing`, so the loop agrees with the reference
clustering. -/
theorem split_hit_aux_eq_spec (a s : ℕ) (rest : List (ℕ × Report)) :
    ∀ (f : ℕ) (cur : List (ℕ × Report)),
      split_hit_aux a s (f + 2 * a + s) cur rest = clusters_spec_aux a s f cur rest := by
  induction rest with
  | nil => intro f cur; rfl
  | cons x tl ih =>
    intro f cur
    simp only [split_hit_aux, clusters_spec_aux]
    by_cases h : f + 2 * a + s < x.1
    · rw [if_pos h, if_pos h, ih]
    · rw [if_neg h, if_neg h, ih]

/-- `split_hit_list` equals the reference clustering. -/
theorem split_hit_list_eq_clusters_spec (items : List (ℕ × Report)) (a s : ℕ) :
    split_hit_list items a s = clusters_spec a s items := by
  cases items with
  | nil => rfl
  | cons x tl =>
    show split_hit_aux a s (x.1 + 2 * a + s) [] (x :: tl) = clusters_spec_aux a s x.1 [x] tl
    simp only [split_hit_aux]
    rw [if_neg (by omega)]
    exact split_hit_aux_eq_spec a s tl x.1 [x]

/-- The first element of a cluster sorted by `sort_hit_list` is the earliest
member attaining the maximum score. -/
theorem sort_hit_list_headD (x d : ℕ × Report) (g : List (ℕ × Report)) :
    (sort_hit_list (x :: g)).headD d = first_max_by max_tm_f x g := by
  induction g generalizing x with
  | nil => rfl
  | cons y tl ih =>
    have hne : sort_hit_list (y :: tl) ≠ [] := by
      have hlen := (List.perm_insertionSort
        (fun a b => max_tm_f b ≤ max_tm_f a) (y :: tl)).length_eq
      intro hempty
      rw [sort_hit_list] at hempty
      rw [hempty] at hlen
      simp at hlen
    obtain ⟨h, t, hst⟩ := List.exists_cons_of_ne_nil hne
    have hh : h = first_max_by max_tm_f y tl := by
      have := ih y
      rw [hst] at this
      exact this
    show (List.orderedInsert (fun a b => max_tm_f b ≤ max_tm_f a) x
        (List.insertionSort (fun a b => max_tm_f b ≤ max_tm_f a) (y :: tl))).headD d
      = first_max_by max_tm_f x (y :: tl)
    rw [show List.insertionSort (fun a b => max_tm_f b ≤ max_tm_f a) (y :: tl)
        = sort_hit_list (y :: tl) from rfl, hst]
    simp only [List.orderedInsert, first_max_by, ← hh]
    by_cases hc : max_tm_f h ≤ max_tm_f x
    · rw [if_pos hc, if_neg ((Frac.not_lt_iff_le _ _).mpr hc)]
      rfl
    · rw [if_neg hc, if_pos ((Frac.not_le_iff_lt _ _).mp hc)]
      rfl

/-- Claim C2: clustering and ranking equal the reference definitions:
`split_hit_list` partitions the (index-ascending) candidate list into
contiguous groups, opening a new group exactly when a candidate's index
exceeds the current group's first candidate index plus
`2*arm_length + spacing` (empty input giving an empty group list), and the
first element of each group after `sort_hit_list` is the member maximizing
`S = tm_arm_min_l + 0.9 * tm_arm_min_r`, ties broken in favor of the earliest
enumeration order. -/
theorem claim_C2 :
    (∀ (items : List (ℕ × Report)) (arm_length spacing : ℕ),
      split_hit_list items arm_length spacing = clusters_spec arm_length spacing items)
    ∧ (∀ (x d : ℕ × Report) (g : List (ℕ × Report)),
      (sort_hit_list (x :: g)).headD d = first_max_by max_tm_f x g) :=
  ⟨fun items a s => split_hit_list_eq_clusters_spec items a s,
   fun x d g => sort_hit_list_headD x d g⟩

/-- A candidate produced at window `i` carries index `i`. -/
theorem padlock_window_fst (calcTm : TmCalc) (calcHeterodimerTm : HeteroCalc)
    (seq : Str) (arm_length gap_size : ℕ) (scaffold : Str) (params : PadConfig)
    (i : ℕ) (x : ℕ × Report)
    (hx : padlock_window calcTm calcHeterodimerTm seq arm_length gap_size scaffold params i
      = some x) : x.1 = i := by
  simp only [padlock_window] at hx
  split at hx
  · split at hx
    · cases hx
      rfl
    · cases hx
  · cases hx

/-- Every candidate index is a window start: `i + 2*arm_length < len(seq)`. -/
theorem padlock_items_lt (calcTm : TmCalc) (calcHeterodimerTm : HeteroCalc)
    (seq : Str) (arm_length gap_size : ℕ) (scaffold : Str) (params : PadConfig) :
    ∀ x ∈ padlock_items calcTm calcHeterodimerTm seq arm_length gap_size scaffold params,
      x.1 + 2 * arm_length < seq.length := by
  intro x hx
  obtain ⟨i, hi, hw⟩ := List.mem_filterMap.mp hx
  have hfst := padlock_window_fst calcTm calcHeterodimerTm seq arm_length gap_size
    scaffold params i x hw
  have := List.mem_range.mp hi
  omega

/-- Candidate indices are strictly increasing (enumeration order). -/
theorem padlock_items_pairwise (calcTm : TmCalc) (calcHeterodimerTm : HeteroCalc)
    (seq : Str) (arm_length gap_size : ℕ) (scaffold : Str) (params : PadConfig) :
    List.Pairwise (fun x y : ℕ × Report => x.1 < y.1)
      (padlock_items calcTm calcHeterodimerTm seq arm_length gap_size scaffold params) := by
  rw [padlock_items]
  refine List.pairwise_filterMap.mpr ?_
  refine (List.pairwise_lt_range _).imp ?_
  intro i j hij x hx y hy
  have hxi := padlock_window_fst calcTm calcHeterodimerTm seq arm_length gap_size
    scaffold params i x hx
  have hyj := padlock_window_fst calcTm calcHeterodimerTm seq arm_length gap_size
    scaffold params j y hy
  omega

/-- Concatenating the groups of `split_hit_aux` recovers `cur ++ rest`. -/
theorem split_hit_aux_flatten (a s : ℕ) (rest : List (ℕ × Report)) :
    ∀ (d : ℕ) (cur : List (ℕ × Report)),
      (split_hit_aux a s d cur rest).flatten = cur ++ rest := by
  induction rest with
  | nil => intro d cur; simp [split_hit_aux]
  | cons x tl ih =>
    intro d cur
    simp only [split_hit_aux]
    by_cases h : d < x.1
    · rw [if_pos h]
      simp [ih]
    · rw [if_neg h]
      rw [ih]
      simp

/-- `split_hit_list` partitions its input: the groups concatenate back to it. -/
theorem split_hit_list_flatten (items : List (ℕ × Report)) (a s : ℕ) :
    (split_hit_list items a s).flatten = items := by
  cases items with
  | nil => rfl
  | cons x tl =>
    show (split_hit_aux a s (x.1 + 2 * a + s) [] (x :: tl)).flatten = x :: tl
    rw [split_hit_aux_flatten]
    rfl

/-- All groups of `split_hit_aux` are nonempty, provided the open one is. -/
theorem split_hit_aux_ne_nil (a s : ℕ) (rest : List (ℕ × Report)) :
    ∀ (d : ℕ) (cur : List (ℕ × Report)), cur ≠ [] →
      ∀ g ∈ split_hit_aux a s d cur rest, g ≠ [] := by
  induction rest with
  | nil =>
    intro d cur hcur g hg
    simp only [split_hit_aux, List.mem_singleton] at hg
    rw [hg]
    exact hcur
  | cons x tl ih =>
    intro d cur hcur g hg
    simp only [split_hit_aux] at hg
    by_cases h : d < x.1
    · rw [if_pos h] at hg
      rcases List.mem_cons.mp hg with h1 | h2
      · rw [h1]; exact hcur
      · exact ih _ [x] (by simp) g h2
    · rw [if_neg h] at hg
      exact ih _ (cur ++ [x]) (by simp) g hg

/-- All groups of `split_hit_list` are nonempty. -/
theorem split_hit_list_ne_nil (items : List (ℕ × Report)) (a s : ℕ) :
    ∀ g ∈ split_hit_list items a s, g ≠ [] := by
  cases items with
  | nil => intro g hg; simp [split_hit_list] at hg
  | cons x tl =>
    intro g hg
    have hshow : split_hit_aux a s (x.1 + 2 * a + s) [] (x :: tl)
        = split_hit_aux a s (x.1 + 2 * a + s) [x] tl := by
      simp only [split_hit_aux]
      rw [if_neg (by omega)]
      rfl
    rw [show split_hit_list (x :: tl) a s
        = split_hit_aux a s (x.1 + 2 * a + s) [] (x :: tl) from rfl, hshow] at hg
    exact split_hit_aux_ne_nil a s tl _ [x] (by simp) g hg

/-- `sort_hit_list` permutes its input. -/
theorem sort_hit_list_perm (g : List (ℕ × Report)) : (sort_hit_list g).Perm g :=
  List.perm_insertionSort _ g

/-- The head of a sorted nonempty cluster is one of its members. -/
theorem sort_headD_mem (g : List (ℕ × Report)) (d : ℕ × Report) (hne : g ≠ []) :
    (sort_hit_list g).headD d ∈ g := by
  have hperm := sort_hit_list_perm g
  have hne2 : sort_hit_list g ≠ [] := by
    intro h
    have hlen := hperm.length_eq
    rw [h] at hlen
    exact hne (List.eq_nil_of_length_eq_zero hlen.symm)
  obtain ⟨y, u, hyu⟩ := List.exists_cons_of_ne_nil hne2
  have hy : y ∈ sort_hit_list g := by
    rw [hyu]
    exact List.mem_cons_self _ _
  have hhead : (sort_hit_list g).headD d = y := by rw [hyu]; rfl
  rw [hhead]
  exact hperm.mem_iff.mp hy

/-- A successful `generate_padlocks` run returns exactly `padlock_hits`. -/
theorem generate_padlocks_ok (ts : ScafTemplates) (calcTm : TmCalc)
    (calcHeterodimerTm : HeteroCalc) (seq : Str) (name0 name1 strand_dir : String)
    (barcodes : List Str) (genome_idx : ℤ) (arm_length : ℕ) (params : PadConfig)
    (hits : List PadHit)
    (h : generate_padlocks ts calcTm calcHeterodimerTm seq name0 name1 strand_dir
      barcodes genome_idx arm_length params = Except.ok hits) :
    hits = padlock_hits ts calcTm calcHeterodimerTm seq name0 name1 strand_dir
      barcodes genome_idx arm_length params := by
  unfold generate_padlocks at h
  split at h
  · cases h
  · split at h
    · cases h
    · cases h
      rfl

/-- Every probe of `padlock_hits` is assembled from a screened candidate: its
index is a candidate index and its fields are the corresponding slices, the
selected scaffold and the last barcode. -/
theorem padlock_hits_mem (ts : ScafTemplates) (calcTm : TmCalc)
    (calcHeterodimerTm : HeteroCalc) (seq : Str) (name0 name1 strand_dir : String)
    (barcodes : List Str) (genome_idx : ℤ) (arm_length : ℕ) (params : PadConfig)
    (hit : PadHit)
    (h : hit ∈ padlock_hits ts calcTm calcHeterodimerTm seq name0 name1 strand_dir
      barcodes genome_idx arm_length params) :
    ∃ x ∈ padlock_items calcTm calcHeterodimerTm seq arm_length params.gap_size
        (select_scaffold ts barcodes) params,
      hit = ⟨name0, name1, strand_dir, genome_idx, x.1, params.gap_size,
        pyslice seq (x.1 + arm_length + params.gap_size)
            (x.1 + 2 * arm_length + params.gap_size)
          ++ select_scaffold ts barcodes ++ pyslice seq x.1 (x.1 + arm_length),
        barcodes.getLastD [],
        pyslice seq (x.1 + arm_length + params.gap_size)
          (x.1 + 2 * arm_length + params.gap_size),
        select_scaffold ts barcodes,
        pyslice seq x.1 (x.1 + arm_length)⟩ := by
  simp only [padlock_hits, List.map_map, List.mem_map, Function.comp] at h
  obtain ⟨g, hg, rfl⟩ := h
  have hne := split_hit_list_ne_nil _ _ _ g hg
  have hmemg := sort_headD_mem g (0, init_report) hne
  have hmemitems : (sort_hit_list g).headD (0, init_report)
      ∈ padlock_items calcTm calcHeterodimerTm seq arm_length params.gap_size
        (select_scaffold ts barcodes) params := by
    rw [← split_hit_list_flatten
      (padlock_items calcTm calcHeterodimerTm seq arm_length params.gap_size
        (select_scaffold ts barcodes) params) arm_length params.spacing]
    exact List.mem_flatten.mpr ⟨g, hg, hmemg⟩
  exact ⟨(sort_hit_list g).headD (0, init_report), hmemitems, rfl⟩

/-- Claim C1, amended: for every `PadHit` returned by `generate_padlocks`,
`padlock_seq == seq_r + scaffold + seq_l` and `len(seq_l) == arm_length`
always hold; when `gap_size = 0` also `len(seq_r) == arm_length` and
`len(padlock_seq) == 2*arm_length + len(scaffold)` (with a positive gap the
right arm of a window within `gap_size` of the end of the sequence is
truncated, as the counterexample shows). -/
theorem claim_C1_amended (ts : ScafTemplates) (calcTm : TmCalc)
    (calcHeterodimerTm : HeteroCalc) (seq : Str) (name0 name1 strand_dir : String)
    (barcodes : List Str) (genome_idx : ℤ) (arm_length : ℕ) (params : PadConfig)
    (hits : List PadHit)
    (h : generate_padlocks ts calcTm calcHeterodimerTm seq name0 name1 strand_dir
      barcodes genome_idx arm_length params = Except.ok hits) :
    ∀ hit ∈ hits,
      hit.padlock_seq = hit.seq_r ++ hit.scaffold ++ hit.seq_l ∧
      hit.seq_l.length = arm_length ∧
      (params.gap_size = 0 →
        hit.seq_r.length = arm_length ∧
        hit.padlock_seq.length = 2 * arm_length + hit.scaffold.length) := by
  intro hit hmem
  rw [generate_padlocks_ok ts calcTm calcHeterodimerTm seq name0 name1 strand_dir
    barcodes genome_idx arm_length params hits h] at hmem
  obtain ⟨x, hx, rfl⟩ := padlock_hits_mem ts calcTm calcHeterodimerTm seq name0 name1
    strand_dir barcodes genome_idx arm_length params hit hmem
  have hlt := padlock_items_lt calcTm calcHeterodimerTm seq arm_length params.gap_size
    (select_scaffold ts barcodes) params x hx
  refine ⟨rfl, ?_, ?_⟩
  · simp only [pyslice, List.length_take, List.length_drop]
    omega
  · intro hgap
    rw [hgap]
    constructor
    · simp only [pyslice, List.length_take, List.length_drop]
      omega
    · simp only [pyslice, List.length_append, List.length_take, List.length_drop]
      omega

/-- A placeholder `PadHit` used as a `headD` default in closed statements. -/
def dummy_hit : PadHit :=
  ⟨"", "", "", 0, 0, 0, [], [], [], [], []⟩

/-- Claim C1, witness: the amended invariant checked at the probe returned by a
concrete `gap_size = 0` run. -/
theorem claim_C1_witness :
    ((run_hits (generate_padlocks fixTs tmConst hetConst "AAA".toList "n0" "n1"
        "fwd" ["A".toList] (-1) 1 (mkCfg 20 0 0 none))).headD dummy_hit).padlock_seq
      = ((run_hits (generate_padlocks fixTs tmConst hetConst "AAA".toList "n0" "n1"
        "fwd" ["A".toList] (-1) 1 (mkCfg 20 0 0 none))).headD dummy_hit).seq_r
        ++ ((run_hits (generate_padlocks fixTs tmConst hetConst "AAA".toList "n0" "n1"
        "fwd" ["A".toList] (-1) 1 (mkCfg 20 0 0 none))).headD dummy_hit).scaffold
        ++ ((run_hits (generate_padlocks fixTs tmConst hetConst "AAA".toList "n0" "n1"
        "fwd" ["A".toList] (-1) 1 (mkCfg 20 0 0 none))).headD dummy_hit).seq_l ∧
    ((run_hits (generate_padlocks fixTs tmConst hetConst "AAA".toList "n0" "n1"
        "fwd" ["A".toList] (-1) 1 (mkCfg 20 0 0 none))).headD dummy_hit).seq_l.length
      = 1 ∧
    ((mkCfg 20 0 0 none).gap_size = 0 →
      ((run_hits (generate_padlocks fixTs tmConst hetConst "AAA".toList "n0" "n1"
        "fwd" ["A".toList] (-1) 1 (mkCfg 20 0 0 none))).headD dummy_hit).seq_r.length
        = 1 ∧
      ((run_hits (generate_padlocks fixTs tmConst hetConst "AAA".toList "n0" "n1"
        "fwd" ["A".toList] (-1) 1 (mkCfg 20 0 0 none))).headD dummy_hit).padlock_seq.length
        = 2 * 1 + ((run_hits (generate_padlocks fixTs tmConst hetConst "AAA".toList "n0"
        "n1" "fwd" ["A".toList] (-1) 1 (mkCfg 20 0 0 none))).headD
          dummy_hit).scaffold.length) :=
  claim_C1_amended fixTs tmConst hetConst "AAA".toList "n0" "n1" "fwd" ["A".toList]
    (-1) 1 (mkCfg 20 0 0 none) _ rfl
    ((run_hits (generate_padlocks fixTs tmConst hetConst "AAA".toList "n0" "n1"
      "fwd" ["A".toList] (-1) 1 (mkCfg 20 0 0 none))).headD dummy_hit) (by decide)

/-- Claim C3, amended: adjacent selected probes come from adjacent clusters and
their window indices strictly increase (`next.index - prev.index >= 1`); the
claimed bound `next.index - prev.index >= spacing` does not hold in general
(see the counterexample): it is only the previous cluster's FIRST member that
every later-cluster member is guaranteed to clear by more than
`2*arm_length + spacing`, and the selected representative need not be that
first member. -/
theorem claim_C3_amended (ts : ScafTemplates) (calcTm : TmCalc)
    (calcHeterodimerTm : HeteroCalc) (seq : Str) (name0 name1 strand_dir : String)
    (barcodes : List Str) (genome_idx : ℤ) (arm_length : ℕ) (params : PadConfig)
    (hits : List PadHit)
    (h : generate_padlocks ts calcTm calcHeterodimerTm seq name0 name1 strand_dir
      barcodes genome_idx arm_length params = Except.ok hits) :
    List.Chain' (fun h1 h2 : PadHit => h1.idx < h2.idx) hits := by
  rw [generate_padlocks_ok ts calcTm calcHeterodimerTm seq name0 name1 strand_dir
    barcodes genome_idx arm_length params hits h]
  simp only [padlock_hits, List.map_map]
  rw [List.chain'_map]
  have hpair : List.Pairwise (fun x y : ℕ × Report => x.1 < y.1)
      ((split_hit_list (padlock_items calcTm calcHeterodimerTm seq arm_length
        params.gap_size (select_scaffold ts barcodes) params) arm_length
        params.spacing).flatten) := by
    rw [split_hit_list_flatten]
    exact padlock_items_pairwise calcTm calcHeterodimerTm seq arm_length
      params.gap_size (select_scaffold ts barcodes) params
  have hbetween := (List.pairwise_flatten.mp hpair).2
  refine List.Pairwise.chain' (hbetween.imp_of_mem ?_)
  intro g1 g2 hg1 hg2 hr
  have h1 := sort_headD_mem g1 (0, init_report) (split_hit_list_ne_nil _ _ _ g1 hg1)
  have h2 := sort_headD_mem g2 (0, init_report) (split_hit_list_ne_nil _ _ _ g2 hg2)
  exact hr _ h1 _ h2

/-- Claim C3, witness: the amended strict-increase property checked on a
concrete two-cluster run. -/
theorem claim_C3_witness :
    List.Chain' (fun h1 h2 : PadHit => h1.idx < h2.idx)
      (run_hits (generate_padlocks fixTs tmTable hetConst "AATTACCA".toList "n0" "n1"
        "fwd" ["A".toList] (-1) 1 (mkCfg 2 0 60 none))) :=
  claim_C3_amended fixTs tmTable hetConst "AATTACCA".toList "n0" "n1" "fwd"
    ["A".toList] (-1) 1 (mkCfg 2 0 60 none) _ rfl

/-- The excluded-substring search finds nothing exactly when no configured
substring occurs. -/
theorem find?_isSome_false_iff {α : Type} (p : α → Bool) (l : List α) :
    ¬((l.find? p).isSome = true) ↔ ∀ x ∈ l, p x = false := by
  rw [List.find?_isSome]
  push_neg
  constructor
  · intro h x hx
    have := h x hx
    simpa using this
  · intro h x hx
    simp [h x hx]

/-- Threading a failure flag through one `if`: the chain stays true exactly when
this check passes and the rest of the chain is true. -/
theorem ite_false_chain (c : Prop) [Decidable c] (b : Bool) :
    ((if c then false else b) = true) ↔ (¬c ∧ b = true) := by
  by_cases h : c <;> simp [h]

/-- Claim C4, amended: `screen_padlock_arms` accepts if and only if: both arms'
GC fractions lie in `[arm_gc_min, arm_gc_max]`; the G/C count in the LEFT
arm's first five bases does not exceed 3 (the right arm's clamp window is
never checked — `padlock_right_arm_gc_clamp` is unused, see the
counterexample); both arms' self-Tm are at least `arm_tm_min`; the
concatenation `right_arm + loop + left_arm` contains no configured excluded
substring; and all three heterodimer Tms are at most `structure_tm_max`. -/
theorem claim_C4_amended (calcTm : TmCalc) (calcHeterodimerTm : HeteroCalc)
    (p_l_seq p_r_seq loop_seq : Str) (p : PadConfig) :
    (screen_padlock_arms calcTm calcHeterodimerTm p_l_seq p_r_seq loop_seq p).1 = true ↔
      (p.arm_gc_min ≤ gc_content p_l_seq ∧ gc_content p_l_seq ≤ p.arm_gc_max ∧
       p.arm_gc_min ≤ gc_content p_r_seq ∧ gc_content p_r_seq ≤ p.arm_gc_max ∧
       padlock_left_arm_gc_clamp p_l_seq ≤ 3 ∧
       p.arm_tm_min ≤ calcTm p_l_seq p.thermo_params ∧
       p.arm_tm_min ≤ calcTm p_r_seq p.thermo_params ∧
       (∀ ex ∈ p.exclude_seqs,
         contains_sub ex (p_r_seq ++ loop_seq ++ p_l_seq) = false) ∧
       calcHeterodimerTm p_l_seq p_r_seq p.thermo_params ≤ p.structure_tm_max ∧
       calcHeterodimerTm p_l_seq loop_seq p.thermo_params ≤ p.structure_tm_max ∧
       calcHeterodimerTm p_r_seq loop_seq p.thermo_params ≤ p.structure_tm_max) := by
  simp only [screen_padlock_arms, ite_false_chain, Frac.not_lt_iff_le, Nat.not_lt,
    find?_isSome_false_iff]
  constructor
  · rintro ⟨h1, h2, h3, h4, h5, h6, h7, h8, h9, h10, h11, -⟩
    exact ⟨h11, h9, h10, h8, h7, h6, h5, h4, h3, h2, h1⟩
  · rintro ⟨a1, a2, a3, a4, a5, a6, a7, a8, a9, a10, a11⟩
    exact ⟨a11, a10, a9, a8, a7, a6, a5, a4, a2, a3, a1, trivial⟩

/-- The singleton-or-empty list built from the first match of `find?` is the
one-element truncation of the full filter. -/
theorem find?_singleton_filter {α : Type} (p : α → Bool) (l : List α) :
    (l.find? p).elim [] (fun x => [x]) = (l.filter p).take 1 := by
  induction l with
  | nil => rfl
  | cons a t ih =>
    by_cases h : p a = true
    · rw [List.find?_cons_of_pos t h, List.filter_cons, if_pos h]
      rfl
    · rw [List.find?_cons_of_neg t h, List.filter_cons, if_neg h]
      exact ih

/-- Claim C5, amended: the report's numeric fields do record the computed
values (both GC fractions, both arm Tms, the three heterodimer Tms), but
`ex_seq` records at most the FIRST configured excluded substring occurring in
`right_arm + loop + left_arm` (the search loop stops at the first match), and
`l_clamp` is the constant `False` regardless of the clamp check's outcome. -/
theorem claim_C5_amended (calcTm : TmCalc) (calcHeterodimerTm : HeteroCalc)
    (p_l_seq p_r_seq loop_seq : Str) (p : PadConfig) :
    (screen_padlock_arms calcTm calcHeterodimerTm p_l_seq p_r_seq loop_seq p).2.l_clamp
      = false ∧
    (screen_padlock_arms calcTm calcHeterodimerTm p_l_seq p_r_seq loop_seq p).2.ex_seq
      = (p.exclude_seqs.filter
          (fun ex => contains_sub ex (p_r_seq ++ loop_seq ++ p_l_seq))).take 1 ∧
    (screen_padlock_arms calcTm calcHeterodimerTm p_l_seq p_r_seq loop_seq p).2.arm_gc_min_l
      = gc_content p_l_seq ∧
    (screen_padlock_arms calcTm calcHeterodimerTm p_l_seq p_r_seq loop_seq p).2.arm_gc_max_l
      = gc_content p_l_seq ∧
    (screen_padlock_arms calcTm calcHeterodimerTm p_l_seq p_r_seq loop_seq p).2.arm_gc_min_r
      = gc_content p_r_seq ∧
    (screen_padlock_arms calcTm calcHeterodimerTm p_l_seq p_r_seq loop_seq p).2.arm_gc_max_r
      = gc_content p_r_seq ∧
    (screen_padlock_arms calcTm calcHeterodimerTm p_l_seq p_r_seq loop_seq p).2.tm_arm_min_l
      = calcTm p_l_seq p.thermo_params ∧
    (screen_padlock_arms calcTm calcHeterodimerTm p_l_seq p_r_seq loop_seq p).2.tm_arm_min_r
      = calcTm p_r_seq p.thermo_params ∧
    (screen_padlock_arms calcTm calcHeterodimerTm p_l_seq p_r_seq loop_seq p).2.tm_hetero_0
      = calcHeterodimerTm p_l_seq p_r_seq p.thermo_params ∧
    (screen_padlock_arms calcTm calcHeterodimerTm p_l_seq p_r_seq loop_seq p).2.tm_hetero_1
      = calcHeterodimerTm p_l_seq loop_seq p.thermo_params ∧
    (screen_padlock_arms calcTm calcHeterodimerTm p_l_seq p_r_seq loop_seq p).2.tm_hetero_2
      = calcHeterodimerTm p_r_seq loop_seq p.thermo_params := by
  refine ⟨rfl, ?_, rfl, rfl, rfl, rfl, rfl, rfl, rfl, rfl, rfl⟩
  show (p.exclude_seqs.find?
        (fun ex => contains_sub ex (p_r_seq ++ loop_seq ++ p_l_seq))).elim []
        (fun ex => [ex])
    = (p.exclude_seqs.filter
        (fun ex => contains_sub ex (p_r_seq ++ loop_seq ++ p_l_seq))).take 1
  exact find?_singleton_filter _ _

/-- The scaffold-selection fold keeps the LAST viable candidate (and the
initial accumulator when no candidate is viable). -/
theorem select_scaffold_aux (ts : ScafTemplates) (bcs : List Str) :
    ∀ acc : Str,
      List.foldl
        (fun acc barcode =>
          let candidate_scaffold := instantiate_scaffold ts.hybrid barcode
          if contains_sub gggg candidate_scaffold then acc else candidate_scaffold)
        acc bcs
      = ((bcs.filter fun b =>
            !contains_sub gggg (instantiate_scaffold ts.hybrid b)).map
          (instantiate_scaffold ts.hybrid)).getLastD acc := by
  induction bcs with
  | nil => intro acc; rfl
  | cons b tl ih =>
    intro acc
    rw [List.foldl_cons, List.filter_cons]
    by_cases h : contains_sub gggg (instantiate_scaffold ts.hybrid b) = true
    · simp only [h, Bool.not_true, if_true, if_false]
      rw [if_neg (by simp)]
      exact ih acc
    · rw [Bool.not_eq_true] at h
      simp only [h, Bool.not_false, if_false]
      rw [if_neg (show ¬(false = true) by simp), if_pos trivial, List.map_cons,
        List.getLastD_cons]
      exact ih (instantiate_scaffold ts.hybrid b)

/-- `select_scaffold` is the scaffold of the last viable barcode. -/
theorem select_scaffold_eq_getLastD (ts : ScafTemplates) (bcs : List Str) :
    select_scaffold ts bcs
      = ((bcs.filter fun b =>
            !contains_sub gggg (instantiate_scaffold ts.hybrid b)).map
          (instantiate_scaffold ts.hybrid)).getLastD [] :=
  select_scaffold_aux ts bcs []

/-- Claim C6, amended: the scaffold used for the entire run by
`generate_padlocks` is the one instantiated from the LAST barcode in the list
whose instantiated scaffold does not contain `GGGG` (the selection loop has no
`break`, so every viable candidate overwrites the previous one). -/
theorem claim_C6_amended (ts : ScafTemplates) (calcTm : TmCalc)
    (calcHeterodimerTm : HeteroCalc) (seq : Str) (name0 name1 strand_dir : String)
    (barcodes : List Str) (genome_idx : ℤ) (arm_length : ℕ) (params : PadConfig)
    (hits : List PadHit)
    (h : generate_padlocks ts calcTm calcHeterodimerTm seq name0 name1 strand_dir
      barcodes genome_idx arm_length params = Except.ok hits) :
    select_scaffold ts barcodes
      = ((barcodes.filter fun b =>
            !contains_sub gggg (instantiate_scaffold ts.hybrid b)).map
          (instantiate_scaffold ts.hybrid)).getLastD []
    ∧ ∀ hit ∈ hits, hit.scaffold = select_scaffold ts barcodes := by
  refine ⟨select_scaffold_eq_getLastD ts barcodes, ?_⟩
  intro hit hmem
  rw [generate_padlocks_ok ts calcTm calcHeterodimerTm seq name0 name1 strand_dir
    barcodes genome_idx arm_length params hits h] at hmem
  obtain ⟨x, hx, rfl⟩ := padlock_hits_mem ts calcTm calcHeterodimerTm seq name0 name1
    strand_dir barcodes genome_idx arm_length params hit hmem
  rfl

/-- Claim C6, witness: the amended last-viable-barcode rule checked on the
concrete two-viable-barcode run, at its returned probe. -/
theorem claim_C6_witness :
    select_scaffold fixTs ["A".toList, "C".toList]
      = ((["A".toList, "C".toList].filter fun b =>
            !contains_sub gggg (instantiate_scaffold fixTs.hybrid b)).map
          (instantiate_scaffold fixTs.hybrid)).getLastD []
    ∧ ((run_hits (generate_padlocks fixTs tmConst hetConst "AAA".toList "n0" "n1"
        "fwd" ["A".toList, "C".toList] (-1) 1 (mkCfg 20 0 0 none))).headD
          dummy_hit).scaffold = select_scaffold fixTs ["A".toList, "C".toList] :=
  ⟨(claim_C6_amended fixTs tmConst hetConst "AAA".toList "n0" "n1" "fwd"
      ["A".toList, "C".toList] (-1) 1 (mkCfg 20 0 0 none) _ rfl).1,
   (claim_C6_amended fixTs tmConst hetConst "AAA".toList "n0" "n1" "fwd"
      ["A".toList, "C".toList] (-1) 1 (mkCfg 20 0 0 none) _ rfl).2
     ((run_hits (generate_padlocks fixTs tmConst hetConst "AAA".toList "n0" "n1"
        "fwd" ["A".toList, "C".toList] (-1) 1 (mkCfg 20 0 0 none))).headD dummy_hit)
     (by decide)⟩

/-- Claim C7: every returned `PadHit` records the LAST barcode of the input
list (the loop variable left over from the scaffold-selection loop), which may
differ from the barcode whose scaffold is used: in the concrete run with
barcodes `["A", "GGGG"]`, the probes carry barcode `GGGG` but scaffold `TAT`
(built from `A`), and `GGGG`'s own scaffold differs from `TAT`. -/
theorem claim_C7 (ts : ScafTemplates) (calcTm : TmCalc)
    (calcHeterodimerTm : HeteroCalc) (seq : Str) (name0 name1 strand_dir : String)
    (barcodes : List Str) (genome_idx : ℤ) (arm_length : ℕ) (params : PadConfig)
    (hits : List PadHit)
    (h : generate_padlocks ts calcTm calcHeterodimerTm seq name0 name1 strand_dir
      barcodes genome_idx arm_length params = Except.ok hits) :
    (∀ hit ∈ hits, hit.barcode = barcodes.getLastD []) ∧
    ((run_hits (generate_padlocks fixTs tmConst hetConst "AAA".toList "n0" "n1" "fwd"
        ["A".toList, "GGGG".toList] (-1) 1 (mkCfg 20 0 0 none))).map PadHit.barcode
        = ["GGGG".toList] ∧
     (run_hits (generate_padlocks fixTs tmConst hetConst "AAA".toList "n0" "n1" "fwd"
        ["A".toList, "GGGG".toList] (-1) 1 (mkCfg 20 0 0 none))).map PadHit.scaffold
        = ["TAT".toList] ∧
     instantiate_scaffold fixTs.hybrid "GGGG".toList ≠ "TAT".toList) := by
  constructor
  · intro hit hmem
    rw [generate_padlocks_ok ts calcTm calcHeterodimerTm seq name0 name1 strand_dir
      barcodes genome_idx arm_length params hits h] at hmem
    obtain ⟨x, hx, rfl⟩ := padlock_hits_mem ts calcTm calcHeterodimerTm seq name0 name1
      strand_dir barcodes genome_idx arm_length params hit hmem
    rfl
  · exact ⟨by decide, by decide, by decide⟩

/-- Claim C7, witness: the last-barcode rule checked at the probe returned by
the concrete run. -/
theorem claim_C7_witness :
    (((run_hits (generate_padlocks fixTs tmConst hetConst "AAA".toList "n0" "n1"
        "fwd" ["A".toList, "GGGG".toList] (-1) 1 (mkCfg 20 0 0 none))).headD
          dummy_hit).barcode = ["A".toList, "GGGG".toList].getLastD []) ∧
    ((run_hits (generate_padlocks fixTs tmConst hetConst "AAA".toList "n0" "n1" "fwd"
        ["A".toList, "GGGG".toList] (-1) 1 (mkCfg 20 0 0 none))).map PadHit.barcode
        = ["GGGG".toList] ∧
     (run_hits (generate_padlocks fixTs tmConst hetConst "AAA".toList "n0" "n1" "fwd"
        ["A".toList, "GGGG".toList] (-1) 1 (mkCfg 20 0 0 none))).map PadHit.scaffold
        = ["TAT".toList] ∧
     instantiate_scaffold fixTs.hybrid "GGGG".toList ≠ "TAT".toList) :=
  ⟨(claim_C7 fixTs tmConst hetConst "AAA".toList "n0" "n1" "fwd"
      ["A".toList, "GGGG".toList] (-1) 1 (mkCfg 20 0 0 none) _ rfl).1
     ((run_hits (generate_padlocks fixTs tmConst hetConst "AAA".toList "n0" "n1"
        "fwd" ["A".toList, "GGGG".toList] (-1) 1 (mkCfg 20 0 0 none))).headD
        dummy_hit) (by decide),
   (claim_C7 fixTs tmConst hetConst "AAA".toList "n0" "n1" "fwd"
      ["A".toList, "GGGG".toList] (-1) 1 (mkCfg 20 0 0 none) _ rfl).2⟩

/-- The last element (with default) of a nonempty list is a member. -/
theorem getLastD_mem {α : Type} : ∀ (l : List α) (d : α), l ≠ [] → l.getLastD d ∈ l := by
  intro l
  induction l with
  | nil => intro d hd; exact absurd rfl hd
  | cons a t ih =>
    intro d hd
    cases t with
    | nil => simp [List.getLastD]
    | cons b u =>
      rw [List.getLastD_cons]
      exact List.mem_cons_of_mem _ (ih a (by simp))

/-- With a hybrid template of nonzero fixed content, the selected scaffold is
empty exactly when every barcode's instantiated scaffold contains `GGGG`. -/
theorem select_scaffold_empty_iff (ts : ScafTemplates)
    (hts : ts.hybrid.pre ++ ts.hybrid.post ≠ []) (bcs : List Str) :
    select_scaffold ts bcs = []
      ↔ ∀ b ∈ bcs, contains_sub gggg (instantiate_scaffold ts.hybrid b) = true := by
  rw [select_scaffold_eq_getLastD]
  constructor
  · intro h b hb
    by_contra hv
    rw [Bool.not_eq_true] at hv
    have hbf : b ∈ bcs.filter
        (fun b => !contains_sub gggg (instantiate_scaffold ts.hybrid b)) :=
      List.mem_filter.mpr ⟨hb, by simp [hv]⟩
    have hne : (bcs.filter
        (fun b => !contains_sub gggg (instantiate_scaffold ts.hybrid b))).map
        (instantiate_scaffold ts.hybrid) ≠ [] := by
      simp only [ne_eq, List.map_eq_nil_iff]
      intro hnil
      rw [hnil] at hbf
      cases hbf
    have hmem := getLastD_mem _ ([] : Str) hne
    rw [h] at hmem
    obtain ⟨b', hb', hinst⟩ := List.mem_map.mp hmem
    have hsplit : ts.hybrid.pre = [] ∧ b' = [] ∧ ts.hybrid.post = [] := by
      have := hinst
      unfold instantiate_scaffold at this
      rw [List.append_eq_nil, List.append_eq_nil] at this
      tauto
    exact hts (by rw [hsplit.1, hsplit.2.2]; rfl)
  · intro h
    have hfil : bcs.filter
        (fun b => !contains_sub gggg (instantiate_scaffold ts.hybrid b)) = [] := by
      rw [List.filter_eq_nil_iff]
      intro b hb
      simp [h b hb]
    rw [hfil]
    rfl

/-- Claim C8: `generate_padlocks` raises an error if and only if the barcode
list is empty or every candidate barcode's instantiated scaffold contains
`GGGG` (the right-hand side does not involve the target sequence, so a
failing run aborts before any window is screened and yields no probes); and
`create_scaffold` raises exactly on an unknown scaffold chemistry.  The
hypothesis states the spec-modelled fact that the hybrid template has nonempty
fixed adapter content, so no instantiated scaffold is the empty string. -/
theorem claim_C8 (ts : ScafTemplates) (hts : ts.hybrid.pre ++ ts.hybrid.post ≠ [])
    (calcTm : TmCalc) (calcHeterodimerTm : HeteroCalc) (seq : Str)
    (name0 name1 strand_dir : String) (barcodes : List Str) (genome_idx : ℤ)
    (arm_length : ℕ) (params : PadConfig) :
    ((∃ e, generate_padlocks ts calcTm calcHeterodimerTm seq name0 name1 strand_dir
        barcodes genome_idx arm_length params = Except.error e)
      ↔ (barcodes = []
          ∨ ∀ b ∈ barcodes, contains_sub gggg (instantiate_scaffold ts.hybrid b) = true))
    ∧ (∀ (b : Str) (scaf_type : String),
        (∃ e, create_scaffold ts b scaf_type = Except.error e)
          ↔ (scaf_type ≠ "solid" ∧ scaf_type ≠ "illumina" ∧ scaf_type ≠ "hybrid")) := by
  constructor
  · unfold generate_padlocks
    by_cases hb : barcodes.length = 0
    · rw [if_pos hb]
      have : barcodes = [] := List.length_eq_zero.mp hb
      simp [this]
    · rw [if_neg hb]
      have hbne : barcodes ≠ [] := fun hc => hb (by rw [hc]; rfl)
      by_cases hs : select_scaffold ts barcodes = []
      · rw [if_pos hs]
        simp only [hbne, false_or]
        constructor
        · intro _
          exact (select_scaffold_empty_iff ts hts barcodes).mp hs
        · intro _
          exact ⟨_, rfl⟩
      · rw [if_neg hs]
        simp only [hbne, false_or]
        constructor
        · rintro ⟨e, he⟩
          cases he
        · intro hall
          exact absurd ((select_scaffold_empty_iff ts hts barcodes).mpr hall) hs
  · intro b scaf_type
    unfold create_scaffold
    by_cases h1 : scaf_type = "solid"
    · rw [if_pos h1]
      simp [h1]
    · rw [if_neg h1]
      by_cases h2 : scaf_type = "illumina"
      · rw [if_pos h2]
        simp [h2]
      · rw [if_neg h2]
        by_cases h3 : scaf_type = "hybrid"
        · rw [if_pos h3]
          simp [h3]
        · rw [if_neg h3]
          simp [h1, h2, h3]

/-- Claim C8, witness: the error characterization instantiated at the concrete
templates and a viable barcode list (no error is raised there). -/
theorem claim_C8_witness :
    ((∃ e, generate_padlocks fixTs tmConst hetConst "AAA".toList "n0" "n1" "fwd"
        ["A".toList] (-1) 1 (mkCfg 20 0 0 none) = Except.error e)
      ↔ (["A".toList] = ([] : List Str)
          ∨ ∀ b ∈ ["A".toList],
              contains_sub gggg (instantiate_scaffold fixTs.hybrid b) = true))
    ∧ ((∃ e, create_scaffold fixTs "A".toList "bogus" = Except.error e)
        ↔ (("bogus" : String) ≠ "solid" ∧ ("bogus" : String) ≠ "illumina"
            ∧ ("bogus" : String) ≠ "hybrid")) :=
  ⟨(claim_C8 fixTs (by decide) tmConst hetConst "AAA".toList "n0" "n1" "fwd"
      ["A".toList] (-1) 1 (mkCfg 20 0 0 none)).1,
   (claim_C8 fixTs (by decide) tmConst hetConst "AAA".toList "n0" "n1" "fwd"
      ["A".toList] (-1) 1 (mkCfg 20 0 0 none)).2 "A".toList "bogus"⟩

/-- Claim C10: the output of `generate_padlocks` does not depend on the
`scaffold` entry of the configuration: the probe scaffold is always rebuilt
from the barcodes with the hybrid template, and no code path reads the
configuration's `scaffold` field. -/
theorem claim_C10 (ts : ScafTemplates) (calcTm : TmCalc)
    (calcHeterodimerTm : HeteroCalc) (seq : Str) (name0 name1 strand_dir : String)
    (barcodes : List Str) (genome_idx : ℤ) (arm_length : ℕ)
    (species : String) (padding spacing arm_length_cfg gap_size : ℕ)
    (arm_gc_min arm_gc_max : Frac) (scaffold1 scaffold2 : Str)
    (exclude_seqs : List Str) (structure_tm_max : Frac) (keep_random_n : Option ℕ)
    (thermo_params : ThermoParams) (arm_tm_min : Frac) :
    generate_padlocks ts calcTm calcHeterodimerTm seq name0 name1 strand_dir
      barcodes genome_idx arm_length
      ⟨species, padding, spacing, arm_length_cfg, gap_size, arm_gc_min, arm_gc_max,
       scaffold1, exclude_seqs, structure_tm_max, keep_random_n, thermo_params,
       arm_tm_min⟩
    = generate_padlocks ts calcTm calcHeterodimerTm seq name0 name1 strand_dir
      barcodes genome_idx arm_length
      ⟨species, padding, spacing, arm_length_cfg, gap_size, arm_gc_min, arm_gc_max,
       scaffold2, exclude_seqs, structure_tm_max, keep_random_n, thermo_params,
       arm_tm_min⟩ := rfl
